import Mathlib

/-!
Verification of the kubeagents status-ingestion and notification-dispatch
subsystem: a shallow embedding of the webhook status-report pipeline
(`internal.StatusReport.Validate`, `handlers.WebhookHandler.processStatusReport`),
the in-memory store (`store.MemoryStore`), the session-expiry sweep
(`MemoryStore.CheckExpiredSessions`), the payload formatter
(`notifier.FormatMessage` / `notifier.BuildPayload`) and the retrying HTTP
delivery loop (`notifier.HTTPClient.Send`), together with theorems about the
claimed behaviour.

Go `time.Time` values are modelled as `Int` nanoseconds since the Unix epoch,
with the zero `time.Time` modelled as `0` (`IsZero` becomes `= 0`); Go
`time.Duration` is likewise `Int` nanoseconds.  Go strings are Lean `String`s
and `len` is `String.length`.  Fallible Go functions returning `error` are
modelled with `Option String` (`none` = nil error) or `Except String`.
-/

namespace KubeAgents

/-- Go `time.Time` as nanoseconds since the Unix epoch (zero value = `0`). -/
abbrev Time := Int

/-- Nanoseconds in one `time.Minute`. -/
def minuteNs : Int := 60000000000

/-- `internal.StatusReport`: the inbound wire message. -/
structure StatusReport where
  agentID : String
  agentName : String
  agentSource : String
  sessionTopic : String
  status : String
  timestamp : Time
  message : String
  content : String
  ttlMinutes : Int
deriving DecidableEq

/-- The fixed four-value status enum used by `StatusReport.Validate` and
`AgentStatus.Validate` (the Go `validStatuses` map lookup). -/
def validStatus (s : String) : Bool :=
  s = "running" || s = "success" || s = "failed" || s = "pending"

/-- `internal.StatusReport.Validate`: returns the first failing check's error
message, or `none` when the report is accepted. -/
def StatusReport.validate (sr : StatusReport) : Option String :=
  if sr.agentID = "" then some "agent_id is required"
  else if 100 < sr.agentID.length then some "agent_id must be 1-100 characters"
  else if 200 < sr.agentName.length then some "agent_name must be 0-200 characters"
  else if 200 < sr.agentSource.length then some "agent_source must be 0-200 characters"
  else if sr.sessionTopic = "" then some "session_topic is required"
  else if 500 < sr.sessionTopic.length then some "session_topic must be 1-500 characters"
  else if validStatus sr.status = false then
    some "status must be one of: running, success, failed, pending"
  else if sr.timestamp = 0 then some "timestamp is required"
  else if 1000 < sr.message.length then some "message must be 0-1000 characters"
  else if 10000 < sr.content.length then some "content must be 0-10000 characters"
  else if sr.ttlMinutes < 0 ∨ (0 < sr.ttlMinutes ∧ (sr.ttlMinutes < 1 ∨ 1440 < sr.ttlMinutes)) then
    some "ttl_minutes must be 0 or 1-1440"
  else none

/-- The rejection condition asserted by the specification for
`StatusReport.Validate`: agent_id empty/oversized, session_topic
empty/oversized, status outside the enum, zero timestamp, message/content
oversized, ttl_minutes outside the allowed range.  (Stated from the spec's
words, for comparison with the code's `StatusReport.validate`.) -/
def specReportRejected (sr : StatusReport) : Prop :=
  sr.agentID = "" ∨ 100 < sr.agentID.length ∨
  sr.sessionTopic = "" ∨ 500 < sr.sessionTopic.length ∨
  validStatus sr.status = false ∨
  sr.timestamp = 0 ∨
  1000 < sr.message.length ∨ 10000 < sr.content.length ∨
  sr.ttlMinutes < 0 ∨ 1440 < sr.ttlMinutes

instance (sr : StatusReport) : Decidable (specReportRejected sr) := by
  unfold specReportRejected; infer_instance

/-- `models.Agent`. -/
structure Agent where
  agentID : String
  userID : String
  name : String
  source : String
  registered : Time
  lastSeen : Time
deriving DecidableEq

/-- `models.Agent.Validate`. -/
def Agent.validate (a : Agent) : Option String :=
  if a.agentID = "" then some "agent_id is required"
  else if 100 < a.agentID.length then some "agent_id must be 1-100 characters"
  else if 200 < a.name.length then some "name must be 0-200 characters"
  else if 200 < a.source.length then some "source must be 0-200 characters"
  else if a.registered = 0 then some "registered time is required"
  else if a.lastSeen = 0 then some "last_seen time is required"
  else none

/-- `models.Session`. -/
structure Session where
  agentID : String
  sessionTopic : String
  created : Time
  lastUpdated : Time
  expired : Bool
  expiredAt : Option Time
  ttlMinutes : Int
deriving DecidableEq

/-- `models.Session.Validate`. -/
def Session.validate (s : Session) : Option String :=
  if s.agentID = "" then some "agent_id is required"
  else if s.sessionTopic = "" then some "session_topic is required"
  else if 500 < s.sessionTopic.length then some "session_topic must be 1-500 characters"
  else if s.created = 0 then some "created time is required"
  else if s.lastUpdated = 0 then some "last_updated time is required"
  else if s.lastUpdated < s.created then some "last_updated must be >= created"
  else if s.ttlMinutes < 0 ∨ 1440 < s.ttlMinutes then some "ttl_minutes must be 0 or 1-1440"
  else none

/-- `models.AgentStatus`: one immutable history record. -/
structure AgentStatus where
  agentID : String
  sessionTopic : String
  status : String
  timestamp : Time
  message : String
  content : String
deriving DecidableEq

/-- `models.AgentStatus.Validate`. -/
def AgentStatus.validate (as : AgentStatus) : Option String :=
  if as.agentID = "" then some "agent_id is required"
  else if as.sessionTopic = "" then some "session_topic is required"
  else if validStatus as.status = false then
    some "status must be one of: running, success, failed, pending"
  else if as.timestamp = 0 then some "timestamp is required"
  else if 1000 < as.message.length then some "message must be 0-1000 characters"
  else if 10000 < as.content.length then some "content must be 0-10000 characters"
  else none

/-- The entity maps of `store.MemoryStore` that the ingestion core touches:
`agents`, `sessions` (agent_id -> session_topic), and `statuses`
(agent_id -> session_topic -> history).  Go's nil map / missing key reads are
modelled by totalising with `Option` / the empty list. -/
@[ext]
structure Store where
  agents : String → Option Agent
  sessions : String → String → Option Session
  statuses : String → String → List AgentStatus

/-- `MemoryStore.GetAgent` (`none` models `ErrNotFound`). -/
def Store.getAgent (st : Store) (agentID : String) : Option Agent :=
  st.agents agentID

/-- The agents map after upserting `a` (`s.agents[agent.AgentID] = agent`). -/
def agentUpsertMap (st : Store) (a : Agent) : String → Option Agent :=
  fun id => if id = a.agentID then some a else st.agents id

/-- `MemoryStore.CreateOrUpdateAgent`: validate then upsert. -/
def Store.createOrUpdateAgent (st : Store) (a : Agent) : Except String Store :=
  match a.validate with
  | some e => .error e
  | none => .ok { st with agents := agentUpsertMap st a }

/-- `MemoryStore.GetSession` (`none` models `ErrNotFound`). -/
def Store.getSession (st : Store) (agentID sessionTopic : String) : Option Session :=
  st.sessions agentID sessionTopic

/-- The sessions map after upserting `s` under its own composite key. -/
def sessionUpsertMap (st : Store) (s : Session) : String → String → Option Session :=
  fun a t => if a = s.agentID ∧ t = s.sessionTopic then some s else st.sessions a t

/-- The history map after appending `rec` under its own composite key. -/
def statusAppendMap (st : Store) (rec : AgentStatus) : String → String → List AgentStatus :=
  fun a t =>
    if a = rec.agentID ∧ t = rec.sessionTopic then st.statuses a t ++ [rec] else st.statuses a t

/-- `MemoryStore.CreateOrUpdateSession`: validate, require the agent to
exist, then upsert. -/
def Store.createOrUpdateSession (st : Store) (s : Session) : Except String Store :=
  match s.validate with
  | some e => .error e
  | none =>
    match st.agents s.agentID with
    | none => .error "not found"
    | some _ => .ok { st with sessions := sessionUpsertMap st s }

/-- `MemoryStore.AddStatus`: validate, require the session to exist, then
append the record to the history slice. -/
def Store.addStatus (st : Store) (rec : AgentStatus) : Except String Store :=
  match rec.validate with
  | some e => .error e
  | none =>
    match st.sessions rec.agentID rec.sessionTopic with
    | none => .error "not found"
    | some _ => .ok { st with statuses := statusAppendMap st rec }

/-- `MemoryStore.GetStatusHistory` (returns the empty slice for unknown keys,
never an error). -/
def Store.getStatusHistory (st : Store) (agentID sessionTopic : String) : List AgentStatus :=
  st.statuses agentID sessionTopic

/-- The per-session body of `MemoryStore.CheckExpiredSessions`: skip already
expired sessions, default a zero TTL to 30 minutes, and flip
`expired`/`expired_at` when `now` is after `last_updated + ttl`. -/
def expireSession (now : Time) (s : Session) : Session :=
  if s.expired then s
  else if s.lastUpdated + (if s.ttlMinutes = 0 then 30 else s.ttlMinutes) * minuteNs < now then
    { s with expired := true, expiredAt := some now }
  else s

/-- `MemoryStore.CheckExpiredSessions`: one sweep over every session at time
`now`.  Each session's update is independent, so the Go map iteration is
modelled pointwise. -/
def Store.checkExpiredSessions (now : Time) (st : Store) : Store :=
  { st with sessions := fun a t => (st.sessions a t).map (expireSession now) }

/-- `notifier.NotificationData`: the ephemeral transition event handed to the
dispatcher. -/
structure NotificationData where
  agentID : String
  agentName : String
  sessionTopic : String
  fromStatus : String
  toStatus : String
  timestamp : Time
  message : String
  content : String
  duration : Int
deriving DecidableEq

/-- The "find latest status" scan in `processStatusReport` (also the loop of
`MemoryStore.GetLatestStatus`): start from `history[0]` and replace the
candidate only on a strictly later timestamp (`s.Timestamp.After`). -/
def latestStatusOf : List AgentStatus → Option AgentStatus
  | [] => none
  | x :: xs => some (xs.foldl (fun acc s => if acc.timestamp < s.timestamp then s else acc) x)

/-- `previousStatus` as computed by `processStatusReport`: the latest entry's
status, or the empty string when there is no history. -/
def previousStatusOf (history : List AgentStatus) : String :=
  match latestStatusOf history with
  | none => ""
  | some e => e.status

/-- The `startTimestamp` scan in `processStatusReport`: over entries with
status `"running"`, keep the earliest timestamp seen
(`startTimestamp.IsZero() || s.Timestamp.Before(startTimestamp)`), starting
from the zero time. -/
def runningStartOf (history : List AgentStatus) : Time :=
  history.foldl
    (fun start s =>
      if s.status = "running" ∧ (start = 0 ∨ s.timestamp < start) then s.timestamp else start)
    0

/-- The agent built by `processStatusReport`: create a fresh agent on
`ErrNotFound`, reject an agent owned by a different user with `ErrNotFound`,
otherwise merge non-empty optional fields and bump `last_seen`. -/
def agentFromReport (st : Store) (sr : StatusReport) (userID : String) (now : Time) :
    Except String Agent :=
  match st.getAgent sr.agentID with
  | none =>
    .ok { agentID := sr.agentID, userID := userID, name := sr.agentName,
          source := sr.agentSource, registered := now, lastSeen := now }
  | some a =>
    if a.userID ≠ userID then .error "not found"
    else
      .ok { a with
            name := if sr.agentName ≠ "" then sr.agentName else a.name,
            source := if sr.agentSource ≠ "" then sr.agentSource else a.source,
            lastSeen := now }

/-- The agent create-or-merge step of `processStatusReport`: build the agent
from the report, then `CreateOrUpdateAgent`. -/
def upsertAgentFromReport (st : Store) (sr : StatusReport) (userID : String) (now : Time) :
    Except String (Agent × Store) :=
  match agentFromReport st sr userID now with
  | .error e => .error e
  | .ok agent =>
    match st.createOrUpdateAgent agent with
    | .error e => .error e
    | .ok st1 => .ok (agent, st1)

/-- The session built by `processStatusReport`: a fresh non-expired session
(defaulting a zero report TTL to 30) on `ErrNotFound`, otherwise the stored
session with `last_updated` bumped and the TTL overwritten only when the
report supplied a positive one. -/
def sessionFromReport (st : Store) (sr : StatusReport) (now : Time) : Session :=
  match st.getSession sr.agentID sr.sessionTopic with
  | none =>
    let ttl := if sr.ttlMinutes = 0 then 30 else sr.ttlMinutes
    { agentID := sr.agentID, sessionTopic := sr.sessionTopic, created := now,
      lastUpdated := now, expired := false, expiredAt := none, ttlMinutes := ttl }
  | some s =>
    { s with
      lastUpdated := now,
      ttlMinutes := if 0 < sr.ttlMinutes then sr.ttlMinutes else s.ttlMinutes }

/-- The session create-or-update step of `processStatusReport`: build the
session from the report, then `CreateOrUpdateSession`. -/
def upsertSessionFromReport (st : Store) (sr : StatusReport) (now : Time) :
    Except String Store :=
  st.createOrUpdateSession (sessionFromReport st sr now)

/-- The `AgentStatus` row built by `processStatusReport` from the report. -/
def statusFromReport (sr : StatusReport) : AgentStatus :=
  { agentID := sr.agentID, sessionTopic := sr.sessionTopic, status := sr.status,
    timestamp := sr.timestamp, message := sr.message, content := sr.content }

/-- Result of one `processStatusReport` call: the store afterwards, the
returned error (`none` = nil), the notifications handed to
`NotificationManager.Notify`, and the (ignored) result of that `Notify`
call. -/
structure ProcessOutcome where
  store : Store
  error : Option String
  enqueued : List NotificationData
  notifyError : Option String

/-- `WebhookHandler.processStatusReport` (the variant wired by `main.go`,
taking the authenticated user's ID): detect the transition from history,
upsert agent and session, append the status row, and when a notifier is
configured and `previous_status == "running"` with a new status of
success/failed/pending, hand a `NotificationData` to `Notify`, ignoring its
result.  `notifyResult` models the outcome `Notify` would return for given
data (its error is logged, never returned). -/
def processStatusReport (notifierPresent : Bool)
    (notifyResult : NotificationData → Option String)
    (st : Store) (sr : StatusReport) (userID : String) (now : Time) : ProcessOutcome :=
  let history := st.getStatusHistory sr.agentID sr.sessionTopic
  let previousStatus := previousStatusOf history
  let startTimestamp := runningStartOf history
  match upsertAgentFromReport st sr userID now with
  | .error e => ⟨st, some e, [], none⟩
  | .ok (agent, st1) =>
    match upsertSessionFromReport st1 sr now with
    | .error e => ⟨st1, some e, [], none⟩
    | .ok st2 =>
      match st2.addStatus (statusFromReport sr) with
      | .error e => ⟨st2, some e, [], none⟩
      | .ok st3 =>
        if notifierPresent ∧ previousStatus = "running" ∧
            (sr.status = "success" ∨ sr.status = "failed" ∨ sr.status = "pending") then
          let duration : Int := if startTimestamp ≠ 0 then sr.timestamp - startTimestamp else 0
          let nd : NotificationData :=
            { agentID := sr.agentID, agentName := agent.name, sessionTopic := sr.sessionTopic,
              fromStatus := previousStatus, toStatus := sr.status, timestamp := sr.timestamp,
              message := sr.message, content := sr.content, duration := duration }
          ⟨st3, none, [nd], notifyResult nd⟩
        else ⟨st3, none, [], none⟩

/-- The notification data `processStatusReport` builds for a qualifying
transition, in terms of the original store's history. -/
def notificationFromReport (agent : Agent) (st : Store) (sr : StatusReport) : NotificationData :=
  { agentID := sr.agentID, agentName := agent.name, sessionTopic := sr.sessionTopic,
    fromStatus := previousStatusOf (st.statuses sr.agentID sr.sessionTopic),
    toStatus := sr.status, timestamp := sr.timestamp, message := sr.message,
    content := sr.content,
    duration :=
      if runningStartOf (st.statuses sr.agentID sr.sessionTopic) ≠ 0 then
        sr.timestamp - runningStartOf (st.statuses sr.agentID sr.sessionTopic)
      else 0 }

/-- The store mutations of `processStatusReport` in sequence (agent upsert,
session upsert, status append), used to state "all store calls succeed". -/
def storeStepsOf (st : Store) (sr : StatusReport) (uid : String) (now : Time) :
    Except String Store :=
  match upsertAgentFromReport st sr uid now with
  | .error e => .error e
  | .ok (_, st1) =>
    match upsertSessionFromReport st1 sr now with
    | .error e => .error e
    | .ok st2 => st2.addStatus (statusFromReport sr)

/-! ### The retrying delivery loop (`notifier.HTTPClient.Send`) -/

/-- `maxRetries` constant from the notifier package. -/
def maxRetries : Nat := 3

/-- `baseBackoff` (100ms), in milliseconds. -/
def baseBackoffMs : Nat := 100

/-- The outcome of one delivery attempt: request construction failed, the
transport failed, or a response with the given status code arrived. -/
inductive AttemptOutcome where
  | buildFail : AttemptOutcome
  | transportFail : AttemptOutcome
  | response : Nat → AttemptOutcome
deriving DecidableEq

/-- An attempt succeeds exactly when a response with a 2xx status arrived
(`resp.StatusCode >= 200 && resp.StatusCode < 300`). -/
def AttemptOutcome.is2xx : AttemptOutcome → Bool
  | .response code => 200 ≤ code && code < 300
  | _ => false

/-- The error message recorded for one failed attempt (`lastErr`). -/
def failureDesc (o : AttemptOutcome) (attempt : Nat) : String :=
  match o with
  | .buildFail => "failed to create request"
  | .transportFail =>
      "request failed (attempt " ++ toString (attempt + 1) ++ "/" ++ toString maxRetries ++ ")"
  | .response code =>
      "request failed with status " ++ toString code ++
        " (attempt " ++ toString (attempt + 1) ++ "/" ++ toString maxRetries ++ ")"

/-- The backoff computed before retry `attempt` (1-based gap index):
`time.Duration(math.Pow(backoffFactor, float64(attempt-1))) * baseBackoff`
with `backoffFactor = 2.0`, in milliseconds (exact for the attempts made). -/
def backoffDelayMs (attempt : Nat) : Nat :=
  2 ^ (attempt - 1) * baseBackoffMs

/-- What one `Send` call did: the returned error (`none` = nil), how many
attempts were started, and the backoff delays waited (ms, in order). -/
structure SendResult where
  error : Option String
  attemptsMade : Nat
  delaysMs : List Nat
deriving DecidableEq

/-- The retry loop of `HTTPClient.Send`, recursing on the remaining attempt
budget: before every attempt but the first, wait the exponential backoff;
stop with nil on a 2xx response; otherwise record the failure and continue;
once the budget is exhausted wrap the last error in "max retries exceeded". -/
def sendLoop (outcomes : Nat → AttemptOutcome) :
    Nat → Nat → Option String → List Nat → SendResult
  | 0, attempt, lastErr, delays =>
    ⟨some ("max retries exceeded: " ++ lastErr.getD ""), attempt, delays⟩
  | fuel + 1, attempt, _lastErr, delays =>
    let delays1 := if 0 < attempt then delays ++ [backoffDelayMs attempt] else delays
    let o := outcomes attempt
    if o.is2xx then ⟨none, attempt + 1, delays1⟩
    else sendLoop outcomes fuel (attempt + 1) (some (failureDesc o attempt)) delays1

/-- `HTTPClient.Send` over an ambient sequence of per-attempt outcomes
(`outcomes i` is what attempt `i` would observe). -/
def httpClientSend (outcomes : Nat → AttemptOutcome) : SendResult :=
  sendLoop outcomes maxRetries 0 none []

/-- A delivery destination that always answers HTTP 500. -/
def alwaysFailing : Nat → AttemptOutcome := fun _ => AttemptOutcome.response 500

/-! ### The payload formatter (`notifier.FormatMessage` / `BuildPayload`) -/

/-- Left-pad the decimal rendering of `n` with zeros to `w` digits. -/
def padZeros (w : Nat) (n : Nat) : String :=
  let s := toString n
  if s.length < w then String.mk (List.replicate (w - s.length) '0') ++ s else s

/-- Days-since-epoch to (year, month, day) in the proleptic Gregorian
calendar (for non-negative days; the civil-from-days algorithm used to model
Go's `time` date computation). -/
def civilFromDays (days : Nat) : Nat × Nat × Nat :=
  let z := days + 719468
  let era := z / 146097
  let doe := z % 146097
  let yoe := (doe - doe / 1460 + doe / 36524 - doe / 146096) / 365
  let y := yoe + era * 400
  let doy := doe - (365 * yoe + yoe / 4 - yoe / 100)
  let mp := (5 * doy + 2) / 153
  let d := doy - (153 * mp + 2) / 5 + 1
  let m := if mp < 10 then mp + 3 else mp - 9
  (if m ≤ 2 then y + 1 else y, m, d)

/-- `t.Format(time.RFC3339)` for a UTC time (nanoseconds since the epoch):
`YYYY-MM-DDTHH:MM:SSZ`. -/
def rfc3339 (t : Time) : String :=
  let ns := t.toNat
  let secs := ns / 1000000000
  let days := secs / 86400
  let rem := secs % 86400
  let ymd := civilFromDays days
  padZeros 4 ymd.1 ++ "-" ++ padZeros 2 ymd.2.1 ++ "-" ++ padZeros 2 ymd.2.2 ++
    "T" ++ padZeros 2 (rem / 3600) ++ ":" ++ padZeros 2 (rem % 3600 / 60) ++ ":" ++
    padZeros 2 (rem % 60) ++ "Z"

/-- Drop trailing `'0'` characters (Go's fraction trimming in
`Duration.String`). -/
def trimTrailingZeros (s : String) : String :=
  String.mk (s.data.reverse.dropWhile (fun c => c = '0')).reverse

/-- A fractional part of `frac` out of `10^digits`, rendered as `"." ++
digits` with trailing zeros trimmed, or `""` when zero. -/
def fracPart (digits frac : Nat) : String :=
  if frac = 0 then "" else "." ++ trimTrailingZeros (padZeros digits frac)

/-- Go `time.Duration.String()` for a duration in nanoseconds: `"0s"` for
zero; `ns`/`µs`/`ms` with fractions below one second; otherwise seconds with
fraction, prefixed by minutes and hours when present; negative durations get
a leading minus sign. -/
def durationGoString (d : Int) : String :=
  if d = 0 then "0s"
  else
    let sign := if d < 0 then "-" else ""
    let n := d.natAbs
    if n < 1000 then sign ++ toString n ++ "ns"
    else if n < 1000000 then sign ++ toString (n / 1000) ++ fracPart 3 (n % 1000) ++ "µs"
    else if n < 1000000000 then sign ++ toString (n / 1000000) ++ fracPart 6 (n % 1000000) ++ "ms"
    else
      let secs := n / 1000000000
      let frac := n % 1000000000
      let secPart := toString (secs % 60) ++ fracPart 9 frac ++ "s"
      if secs < 60 then sign ++ secPart
      else
        let minPart := toString (secs / 60 % 60) ++ "m" ++ secPart
        if secs < 3600 then sign ++ minPart
        else sign ++ toString (secs / 3600) ++ "h" ++ minPart

/-- `notifier.FormatMessage`: the fixed `Sprintf` block followed by the two
conditional appends. -/
def formatMessage (d : NotificationData) : String :=
  let msg :=
    "🔔 Session Status Change\n\nAgent ID: " ++ d.agentID ++
    "\nAgent Name: " ++ d.agentName ++
    "\nSession: " ++ d.sessionTopic ++
    "\nStatus: " ++ d.fromStatus ++ " → " ++ d.toStatus ++
    "\nTimestamp: " ++ rfc3339 d.timestamp ++
    "\nDuration: " ++ durationGoString d.duration
  let msg := if d.message ≠ "" then msg ++ ("\nMessage: " ++ d.message) else msg
  let msg := if d.content ≠ "" then msg ++ ("\nContent: " ++ d.content) else msg
  msg

/-- `encoding/json` escaping of one character inside a JSON string:
quote, backslash, the named control escapes, `\u00XX` for other control
characters, the HTML-safe escapes for `<`, `>`, `&`, and the line-separator
escapes for U+2028/U+2029. -/
def jsonEscapeChar (c : Char) : String :=
  if c = '"' then "\\\""
  else if c = '\\' then "\\\\"
  else if c = '\n' then "\\n"
  else if c = '\r' then "\\r"
  else if c = '\t' then "\\t"
  else if c.toNat < 32 then
    "\\u00" ++ (if c.toNat / 16 = 0 then "0" else "1") ++
      String.singleton (Nat.digitChar (c.toNat % 16))
  else if c = '<' then "\\u003c"
  else if c = '>' then "\\u003e"
  else if c = '&' then "\\u0026"
  else if c.toNat = 8232 then "\\u2028"
  else if c.toNat = 8233 then "\\u2029"
  else String.singleton c

/-- `encoding/json` rendering of a Go string as a JSON string literal. -/
def jsonQuote (s : String) : String :=
  "\"" ++ String.join (s.data.map jsonEscapeChar) ++ "\""

/-- `notifier.BuildPayload`: `json.Marshal` of the `WebhookPayload` struct,
whose tagged fields marshal, in declaration order, to
`\x7b"msg_type":"text","content":\x7b"text":<text>\x7d\x7d`. -/
def buildPayload (d : NotificationData) : String :=
  "\x7b\"msg_type\":\"text\",\"content\":\x7b\"text\":" ++
    jsonQuote (formatMessage d) ++ "\x7d\x7d"

/-- A small JSON value type, for stating what `BuildPayload` produces
independently of the hand-rolled concatenation. -/
inductive Json where
  | str : String → Json
  | obj : List (String × Json) → Json

mutual

/-- Render a JSON value (objects in field order, strings escaped as
`encoding/json` does). -/
def Json.render : Json → String
  | .str s => jsonQuote s
  | .obj fields => "\x7b" ++ Json.renderFields fields ++ "\x7d"

/-- Render object fields as a comma-separated list. -/
def Json.renderFields : List (String × Json) → String
  | [] => ""
  | [(k, v)] => jsonQuote k ++ ":" ++ v.render
  | (k, v) :: rest => jsonQuote k ++ ":" ++ v.render ++ "," ++ Json.renderFields rest

end

/-! ### Specification-side comparison definitions and concrete inputs -/

/-- Whether an `Except` is an `ok` (a nil Go error). -/
def exceptOk {α : Type} : Except String α → Bool
  | .ok _ => true
  | .error _ => false

/-- The timestamps of the history entries whose status is `"running"`. -/
def runningTimestamps (history : List AgentStatus) : List Int :=
  (history.filter (fun e => e.status = "running")).map (fun e => e.timestamp)

/-- The minimum of a list of timestamps (spec side: "the minimum timestamp
among all entries whose status is running"). -/
def minTs : List Int → Option Int
  | [] => none
  | x :: xs =>
    match minTs xs with
    | none => some x
    | some m => some (min x m)

/-- The maximum of a list of timestamps. -/
def maxTs : List Int → Option Int
  | [] => none
  | x :: xs =>
    match maxTs xs with
    | none => some x
    | some m => some (max x m)

/-- The timestamp of the most recent prior `"running"` record, zero if none —
the quantity the specification's NotificationData description says the
duration is measured from. -/
def specMostRecentRunningTs (history : List AgentStatus) : Int :=
  (maxTs (runningTimestamps history)).getD 0

/-- A 201-character name, exceeding the `agent_name` bound the spec does not
mention. -/
def longName201 : String := String.mk (List.replicate 201 'x')

/-- A report that is valid except for its oversized `agent_name`. -/
def reportLongAgentName : StatusReport :=
  { agentID := "agent-1", agentName := longName201, agentSource := "",
    sessionTopic := "topic-1", status := "running", timestamp := 1000,
    message := "", content := "", ttlMinutes := 0 }

/-- A concrete registered agent. -/
def agentW : Agent :=
  { agentID := "agent-1", userID := "user-1", name := "Worker", source := "",
    registered := 1000000000, lastSeen := 1000000000 }

/-- A concrete live session for `agentW`. -/
def sessionW : Session :=
  { agentID := "agent-1", sessionTopic := "topic-1", created := 1000000000,
    lastUpdated := 1000000000, expired := false, expiredAt := none, ttlMinutes := 30 }

/-- A concrete history with two `"running"` records at 1s and 2s. -/
def historyW : List AgentStatus :=
  [ { agentID := "agent-1", sessionTopic := "topic-1", status := "running",
      timestamp := 1000000000, message := "", content := "" },
    { agentID := "agent-1", sessionTopic := "topic-1", status := "running",
      timestamp := 2000000000, message := "", content := "" } ]

/-- A concrete store holding `agentW`, `sessionW` and `historyW`. -/
def storeW : Store :=
  { agents := fun id => if id = "agent-1" then some agentW else none,
    sessions := fun a t => if a = "agent-1" ∧ t = "topic-1" then some sessionW else none,
    statuses := fun a t => if a = "agent-1" ∧ t = "topic-1" then historyW else [] }

/-- The same store with the session already expired. -/
def storeWExpired : Store :=
  { storeW with
    sessions := fun a t =>
      if a = "agent-1" ∧ t = "topic-1" then
        some { sessionW with expired := true, expiredAt := some 1500000000 }
      else none }

/-- The same store without the session and its history (fresh-key case). -/
def storeWFresh : Store :=
  { agents := fun id => if id = "agent-1" then some agentW else none,
    sessions := fun _ _ => none,
    statuses := fun _ _ => [] }

/-- A concrete `success` report at 3s closing the running session. -/
def reportW : StatusReport :=
  { agentID := "agent-1", agentName := "", agentSource := "",
    sessionTopic := "topic-1", status := "success", timestamp := 3000000000,
    message := "", content := "", ttlMinutes := 0 }

/-- `storeW` after appending `reportW`'s status record. -/
def storeWAdded : Store :=
  { storeW with statuses := statusAppendMap storeW (statusFromReport reportW) }

/-- A session that has been idle for 61 minutes at sweep time 61 minutes. -/
def sessionStale : Session :=
  { agentID := "agent-1", sessionTopic := "stale", created := 1,
    lastUpdated := 1, expired := false, expiredAt := none, ttlMinutes := 30 }

/-- A session last updated 10 minutes before sweep time 61 minutes. -/
def sessionFresh : Session :=
  { agentID := "agent-1", sessionTopic := "fresh", created := 1,
    lastUpdated := 3060000000000, expired := false, expiredAt := none, ttlMinutes := 30 }

/-- A store for the expiry-sweep witness: one session 61 minutes idle and one
10 minutes idle, both with a 30-minute TTL, at `now = 61` minutes. -/
def storeSweep : Store :=
  { agents := fun id => if id = "agent-1" then some agentW else none,
    sessions := fun a t =>
      if a = "agent-1" ∧ t = "stale" then some sessionStale
      else if a = "agent-1" ∧ t = "fresh" then some sessionFresh
      else none,
    statuses := fun _ _ => [] }

/-! ### Theorems -/

set_option maxRecDepth 10000 in
/-- C7 (counterexample): at `reportLongAgentName`, `Validate` rejects although
none of the conditions listed by the claim holds, so the claimed
"if and only if" fails. -/
theorem validate_iff_claim_false_at_long_agent_name :
    ¬ ((reportLongAgentName.validate ≠ none) ↔ specReportRejected reportLongAgentName) := by
  decide

set_option maxHeartbeats 1000000 in
/-- C7 (amended): `StatusReport.Validate` returns a non-nil error iff one of
the claim's conditions holds or `agent_name` is longer than 200 or
`agent_source` is longer than 200; it returns nil for every other report. -/
theorem validate_error_characterization (sr : StatusReport) :
    sr.validate ≠ none ↔
      (specReportRejected sr ∨ 200 < sr.agentName.length ∨ 200 < sr.agentSource.length) := by
  unfold StatusReport.validate specReportRejected
  split_ifs with h1 h2 h3 h4 h5 h6 h7 h8 h9 h10 h11 <;>
    simp only [ne_eq, reduceCtorEq, not_false_eq_true, true_iff, not_true_eq_false, false_iff] <;>
    try tauto
  · rcases h11 with h | ⟨_, h⟩ <;> [tauto; (rcases h with h | h; omega; tauto)]
  · push_neg
    refine ⟨⟨?_, ?_, ?_, ?_, ?_, ?_, ?_, ?_, ?_, ?_⟩, ?_, ?_⟩ <;> first | omega | tauto

/-- C3: `HTTPClient.Send` makes at most 3 attempts; it returns nil iff some
attempt it made got a 2xx response, and a 2xx stops retrying (the last
attempt made is the first 2xx); the backoff delays waited are 100ms before
retry 2 and 200ms before retry 3 (base 100ms, multiplier 2); and when all 3
attempts fail the returned error wraps "max retries exceeded". -/
theorem send_retry_behavior (outcomes : Nat → AttemptOutcome) :
    (httpClientSend outcomes).attemptsMade ≤ maxRetries ∧
    ((httpClientSend outcomes).error = none ↔
      ∃ i, i < (httpClientSend outcomes).attemptsMade ∧ (outcomes i).is2xx = true) ∧
    ((httpClientSend outcomes).error = none →
      (outcomes ((httpClientSend outcomes).attemptsMade - 1)).is2xx = true ∧
        ∀ j, j < (httpClientSend outcomes).attemptsMade - 1 → (outcomes j).is2xx = false) ∧
    (httpClientSend outcomes).delaysMs =
      (List.range ((httpClientSend outcomes).attemptsMade - 1)).map
        (fun k => backoffDelayMs (k + 1)) ∧
    backoffDelayMs 1 = 100 ∧ backoffDelayMs 2 = 200 ∧
    ((∀ i, i < maxRetries → (outcomes i).is2xx = false) →
      (httpClientSend outcomes).attemptsMade = maxRetries ∧
        ∃ s, (httpClientSend outcomes).error = some ("max retries exceeded: " ++ s)) := by
  cases h0 : (outcomes 0).is2xx with
  | true =>
    have e : httpClientSend outcomes = ⟨none, 1, []⟩ := by
      simp [httpClientSend, maxRetries, sendLoop, h0]
    rw [e]; dsimp only
    refine ⟨by decide, ⟨fun _ => ⟨0, by decide, h0⟩, fun _ => rfl⟩,
      fun _ => ⟨h0, fun j hj => absurd hj (by omega)⟩, by decide, by decide, by decide, ?_⟩
    intro hall
    exact absurd h0 (by simp [hall 0 (by decide)])
  | false =>
    cases h1 : (outcomes 1).is2xx with
    | true =>
      have e : httpClientSend outcomes = ⟨none, 2, [100]⟩ := by
        simp [httpClientSend, maxRetries, sendLoop, h0, h1, backoffDelayMs, baseBackoffMs]
      rw [e]; dsimp only
      refine ⟨by decide, ⟨fun _ => ⟨1, by decide, h1⟩, fun _ => rfl⟩,
        fun _ => ⟨h1, ?_⟩, by decide, by decide, by decide, ?_⟩
      · intro j hj
        have hj0 : j = 0 := by omega
        rw [hj0]; exact h0
      · intro hall
        exact absurd h1 (by simp [hall 1 (by decide)])
    | false =>
      cases h2 : (outcomes 2).is2xx with
      | true =>
        have e : httpClientSend outcomes = ⟨none, 3, [100, 200]⟩ := by
          simp [httpClientSend, maxRetries, sendLoop, h0, h1, h2, backoffDelayMs, baseBackoffMs]
        rw [e]; dsimp only
        refine ⟨by decide, ⟨fun _ => ⟨2, by decide, h2⟩, fun _ => rfl⟩,
          fun _ => ⟨h2, ?_⟩, by decide, by decide, by decide, ?_⟩
        · intro j hj
          have hj01 : j = 0 ∨ j = 1 := by omega
          rcases hj01 with h | h <;> rw [h]
          · exact h0
          · exact h1
        · intro hall
          exact absurd h2 (by simp [hall 2 (by decide)])
      | false =>
        have e : httpClientSend outcomes =
            ⟨some ("max retries exceeded: " ++ failureDesc (outcomes 2) 2), 3, [100, 200]⟩ := by
          simp [httpClientSend, maxRetries, sendLoop, h0, h1, h2, backoffDelayMs, baseBackoffMs]
        rw [e]; dsimp only
        refine ⟨by decide, ?_, fun h => absurd h (by simp), by decide, by decide, by decide,
          fun _ => ⟨rfl, ⟨failureDesc (outcomes 2) 2, rfl⟩⟩⟩
        simp only [reduceCtorEq, false_iff, not_exists, not_and]
        intro i hi
        have hi012 : i = 0 ∨ i = 1 ∨ i = 2 := by omega
        rcases hi012 with h | h | h <;> rw [h] <;> simp [h0, h1, h2]

/-- C3 (witness): a destination that always answers 500 exhausts exactly 3
attempts and yields the "max retries exceeded" error. -/
theorem send_retry_behavior_witness :
    (httpClientSend alwaysFailing).attemptsMade = maxRetries ∧
    ∃ s, (httpClientSend alwaysFailing).error = some ("max retries exceeded: " ++ s) :=
  (send_retry_behavior alwaysFailing).2.2.2.2.2.2 (fun _ _ => rfl)

/-- A non-expired session past its (defaulted) TTL is flipped. -/
theorem expireSession_flips (now : Time) (s : Session) (hexp : s.expired = false)
    (hidle : s.lastUpdated + (if s.ttlMinutes = 0 then 30 else s.ttlMinutes) * minuteNs < now) :
    expireSession now s = { s with expired := true, expiredAt := some now } := by
  unfold expireSession
  rw [hexp]
  simp only [Bool.false_eq_true, if_false, if_pos hidle]

/-- An already-expired session is untouched by the sweep body. -/
theorem expireSession_keeps_expired (now : Time) (s : Session) (hexp : s.expired = true) :
    expireSession now s = s := by
  simp [expireSession, hexp]

/-- A session within its (defaulted) TTL is untouched by the sweep body. -/
theorem expireSession_keeps_live (now : Time) (s : Session)
    (hidle : ¬ s.lastUpdated + (if s.ttlMinutes = 0 then 30 else s.ttlMinutes) * minuteNs < now) :
    expireSession now s = s := by
  unfold expireSession
  by_cases h1 : s.expired = true
  · rw [if_pos h1]
  · rw [if_neg h1, if_neg hidle]

/-- One sweep never changes an already processed session again. -/
theorem expireSession_idem (now : Time) (s : Session) :
    expireSession now (expireSession now s) = expireSession now s := by
  by_cases h : s.expired = true
  · rw [expireSession_keeps_expired now s h, expireSession_keeps_expired now s h]
  · by_cases h2 : s.lastUpdated + (if s.ttlMinutes = 0 then 30 else s.ttlMinutes) * minuteNs < now
    · rw [expireSession_flips now s (by simpa using h) h2]
      exact expireSession_keeps_expired now _ rfl
    · rw [expireSession_keeps_live now s h2, expireSession_keeps_live now s h2]

/-- Auxiliary shape of the idempotence goal: the sweep body is idempotent
pointwise on the session maps. -/
theorem checkExpired_pointwise (now : Time) (o : Option Session) :
    Option.map (expireSession now) (Option.map (expireSession now) o) =
      Option.map (expireSession now) o := by
  cases o with
  | none => rfl
  | some s => simp [expireSession_idem]

/-- C6: after one `CheckExpiredSessions` sweep at `now`, a non-expired session
whose idle time exceeds its TTL (defaulting to 30 minutes when
`ttl_minutes = 0`) has `expired = true` and `expired_at = now`; every other
session — in particular an already-expired one, at any sweep time — is
unchanged; unknown keys stay absent; and repeating the sweep at the same
instant changes nothing. -/
theorem expiry_sweep_spec (now : Time) (st : Store) (a t : String) (s : Session) :
    (st.sessions a t = some s →
      ((s.expired = false ∧
          s.lastUpdated + (if s.ttlMinutes = 0 then 30 else s.ttlMinutes) * minuteNs < now →
        (Store.checkExpiredSessions now st).sessions a t =
          some { s with expired := true, expiredAt := some now }) ∧
       (s.expired = true →
        (Store.checkExpiredSessions now st).sessions a t = some s) ∧
       (¬ s.lastUpdated + (if s.ttlMinutes = 0 then 30 else s.ttlMinutes) * minuteNs < now →
        (Store.checkExpiredSessions now st).sessions a t = some s))) ∧
    (st.sessions a t = none → (Store.checkExpiredSessions now st).sessions a t = none) ∧
    Store.checkExpiredSessions now (Store.checkExpiredSessions now st) =
      Store.checkExpiredSessions now st := by
  refine ⟨?_, ?_, ?_⟩
  · intro hs
    refine ⟨?_, ?_, ?_⟩
    · intro ⟨hexp, hidle⟩
      simp only [Store.checkExpiredSessions, hs, Option.map_some',
        expireSession_flips now s hexp hidle]
    · intro hexp
      simp only [Store.checkExpiredSessions, hs, Option.map_some',
        expireSession_keeps_expired now s hexp]
    · intro hidle
      simp only [Store.checkExpiredSessions, hs, Option.map_some',
        expireSession_keeps_live now s hidle]
  · intro hs
    simp [Store.checkExpiredSessions, hs]
  · refine Store.ext rfl ?_ rfl
    funext a1 t1
    dsimp only [Store.checkExpiredSessions]
    exact checkExpired_pointwise now (st.sessions a1 t1)

/-- C6 (witness): in `storeSweep` at `now` = 61 minutes, the session idle for
61 minutes is flipped to expired with `expired_at = now`, and the session
idle for 10 minutes is unchanged. -/
theorem expiry_sweep_spec_witness :
    (Store.checkExpiredSessions 3660000000000 storeSweep).sessions "agent-1" "stale" =
      some { sessionStale with expired := true, expiredAt := some 3660000000000 } ∧
    (Store.checkExpiredSessions 3660000000000 storeSweep).sessions "agent-1" "fresh" =
      some sessionFresh := by
  constructor
  · exact ((expiry_sweep_spec 3660000000000 storeSweep "agent-1" "stale" sessionStale).1
      (by decide)).1 (by decide)
  · exact ((expiry_sweep_spec 3660000000000 storeSweep "agent-1" "fresh" sessionFresh).1
      (by decide)).2.2 (by decide)

/-- The "find latest" fold returns the first entry attaining the maximal
timestamp: the list splits around the result, everything before it is
strictly earlier, and nothing in the list is later. -/
theorem foldl_latest_first_max (l : List AgentStatus) :
    ∀ a : AgentStatus,
      ∃ l₁ l₂,
        a :: l =
          l₁ ++ (l.foldl (fun acc s => if acc.timestamp < s.timestamp then s else acc) a) :: l₂ ∧
        (∀ e ∈ l₁, e.timestamp <
          (l.foldl (fun acc s => if acc.timestamp < s.timestamp then s else acc) a).timestamp) ∧
        (∀ e ∈ a :: l, e.timestamp ≤
          (l.foldl (fun acc s => if acc.timestamp < s.timestamp then s else acc) a).timestamp) := by
  induction l with
  | nil =>
    intro a
    exact ⟨[], [], rfl, by simp, by simp⟩
  | cons s t ih =>
    intro a
    rw [List.foldl_cons]
    by_cases h : a.timestamp < s.timestamp
    · rw [if_pos h]
      obtain ⟨m₁, m₂, heq, hlt, hle⟩ := ih s
      refine ⟨a :: m₁, m₂, ?_, ?_, ?_⟩
      · rw [List.cons_append, ← heq]
      · intro e he
        rcases List.mem_cons.mp he with rfl | hm
        · exact lt_of_lt_of_le h (hle s (List.mem_cons_self s t))
        · exact hlt e hm
      · intro e he
        rcases List.mem_cons.mp he with rfl | hm
        · exact le_of_lt (lt_of_lt_of_le h (hle s (List.mem_cons_self s t)))
        · exact hle e hm
    · rw [if_neg h]
      obtain ⟨m₁, m₂, heq, hlt, hle⟩ := ih a
      rcases m₁ with _ | ⟨x, m₁t⟩
      · rw [List.nil_append] at heq
        injection heq with hr hm
        refine ⟨[], s :: t, ?_, by simp, ?_⟩
        · rw [List.nil_append, ← hr]
        · intro e he
          rcases List.mem_cons.mp he with rfl | he2
          · rw [← hr]
          · rcases List.mem_cons.mp he2 with rfl | he3
            · rw [← hr]; exact le_of_not_lt h
            · exact hle e (List.mem_cons_of_mem a he3)
      · rw [List.cons_append] at heq
        injection heq with hx ht
        have har : a.timestamp <
            (t.foldl (fun acc s => if acc.timestamp < s.timestamp then s else acc) a).timestamp := by
          have hx2 := hlt x (List.mem_cons_self x m₁t)
          rw [← hx] at hx2
          exact hx2
        refine ⟨a :: s :: m₁t, m₂, ?_, ?_, ?_⟩
        · rw [List.cons_append, List.cons_append, ← ht]
        · intro e he
          rcases List.mem_cons.mp he with rfl | he2
          · exact har
          · rcases List.mem_cons.mp he2 with rfl | he3
            · exact lt_of_le_of_lt (le_of_not_lt h) har
            · exact hlt e (List.mem_cons_of_mem x he3)
        · intro e he
          rcases List.mem_cons.mp he with rfl | he2
          · exact le_of_lt har
          · rcases List.mem_cons.mp he2 with rfl | he3
            · exact le_trans (le_of_not_lt h) (le_of_lt har)
            · exact hle e (List.mem_cons_of_mem a he3)

/-- The "find running start" fold computes, for a non-negative accumulator,
the minimum of the accumulator (when non-zero) and the `"running"`
timestamps, provided all running timestamps are positive. -/
theorem foldl_running_min (l : List AgentStatus) :
    ∀ acc : Int, (∀ e ∈ l, e.status = "running" → 0 < e.timestamp) → 0 ≤ acc →
      l.foldl
        (fun start s =>
          if s.status = "running" ∧ (start = 0 ∨ s.timestamp < start) then s.timestamp else start)
        acc =
      (if acc = 0 then (minTs (runningTimestamps l)).getD 0
       else
         match minTs (runningTimestamps l) with
         | none => acc
         | some m => min acc m) := by
  induction l with
  | nil =>
    intro acc hz hacc
    by_cases ha : acc = 0
    · simp [ha, runningTimestamps, minTs]
    · simp [ha, runningTimestamps, minTs]
  | cons e t ih =>
    intro acc hz hacc
    rw [List.foldl_cons]
    by_cases he : e.status = "running"
    · have hepos : 0 < e.timestamp := hz e (List.mem_cons_self e t) he
      have hrt : runningTimestamps (e :: t) = e.timestamp :: runningTimestamps t := by
        simp [runningTimestamps, he]
      by_cases ha : acc = 0
      · rw [if_pos ⟨he, Or.inl ha⟩]
        rw [ih e.timestamp (fun x hx hrx => hz x (List.mem_cons_of_mem e hx) hrx)
          (le_of_lt hepos)]
        rw [if_neg (ne_of_gt hepos), if_pos ha, hrt]
        cases hmt : minTs (runningTimestamps t) with
        | none => simp [minTs, hmt]
        | some m => simp [minTs, hmt]
      · have haccpos : 0 < acc := lt_of_le_of_ne hacc (Ne.symm ha)
        have hstep :
            (if e.status = "running" ∧ (acc = 0 ∨ e.timestamp < acc) then e.timestamp else acc) =
              min acc e.timestamp := by
          by_cases hlt2 : e.timestamp < acc
          · rw [if_pos ⟨he, Or.inr hlt2⟩]
            exact (min_eq_right (le_of_lt hlt2)).symm
          · have hcond : ¬ (e.status = "running" ∧ (acc = 0 ∨ e.timestamp < acc)) := by
              rintro ⟨_, h0 | hl⟩
              · exact ha h0
              · exact hlt2 hl
            rw [if_neg hcond]
            exact (min_eq_left (le_of_not_lt hlt2)).symm
        rw [hstep]
        have hminpos : 0 < min acc e.timestamp := lt_min haccpos hepos
        rw [ih (min acc e.timestamp) (fun x hx hrx => hz x (List.mem_cons_of_mem e hx) hrx)
          (le_of_lt hminpos)]
        rw [if_neg (ne_of_gt hminpos), if_neg ha, hrt]
        cases hmt : minTs (runningTimestamps t) with
        | none => simp [minTs, hmt]
        | some m => simp [minTs, hmt, min_assoc]
    · have hrt : runningTimestamps (e :: t) = runningTimestamps t := by
        simp [runningTimestamps, he]
      have hstep :
          (if e.status = "running" ∧ (acc = 0 ∨ e.timestamp < acc) then e.timestamp else acc) =
            acc := by
        rw [if_neg]
        rintro ⟨hr, _⟩
        exact he hr
      rw [hstep, ih acc (fun x hx hrx => hz x (List.mem_cons_of_mem e hx) hrx) hacc, hrt]

/-- `running_start` equals the minimum running timestamp (zero when there is
no running entry), for histories whose running timestamps are positive. -/
theorem runningStart_eq_minTs (history : List AgentStatus)
    (hz : ∀ e ∈ history, e.status = "running" → 0 < e.timestamp) :
    runningStartOf history = (minTs (runningTimestamps history)).getD 0 := by
  unfold runningStartOf
  rw [foldl_running_min history 0 hz le_rfl, if_pos rfl]

/-- C4: the transition detector's single scans compute, for a history whose
running entries carry positive (non-zero-value) timestamps:
`previous_status` is the status of the first history entry attaining the
maximal timestamp (empty for an empty history), and `running_start` is the
minimum timestamp over entries with status `"running"` (the zero time value
when there is none, or for an empty history). -/
theorem transition_scan_spec (history : List AgentStatus)
    (hz : ∀ e ∈ history, e.status = "running" → 0 < e.timestamp) :
    (history = [] → previousStatusOf history = "" ∧ runningStartOf history = 0) ∧
    (history ≠ [] → ∃ l₁ e l₂,
      history = l₁ ++ e :: l₂ ∧ previousStatusOf history = e.status ∧
      (∀ x ∈ l₁, x.timestamp < e.timestamp) ∧
      (∀ x ∈ history, x.timestamp ≤ e.timestamp)) ∧
    runningStartOf history = (minTs (runningTimestamps history)).getD 0 := by
  refine ⟨?_, ?_, ?_⟩
  · rintro rfl
    exact ⟨rfl, rfl⟩
  · intro hne
    cases history with
    | nil => exact absurd rfl hne
    | cons a l =>
      obtain ⟨l₁, l₂, heq, hlt, hle⟩ := foldl_latest_first_max l a
      exact ⟨l₁, _, l₂, heq, rfl, hlt, hle⟩
  · exact runningStart_eq_minTs history hz

/-- C4 (witness): on the concrete two-entry history `historyW`, the scans
return `previous_status = "running"` (the entry at 2s is the unique maximum)
and `running_start = 1s` (the earlier running record). -/
theorem transition_scan_spec_witness :
    (historyW ≠ [] → ∃ l₁ e l₂,
      historyW = l₁ ++ e :: l₂ ∧ previousStatusOf historyW = e.status ∧
      (∀ x ∈ l₁, x.timestamp < e.timestamp) ∧
      (∀ x ∈ historyW, x.timestamp ≤ e.timestamp)) ∧
    runningStartOf historyW = (minTs (runningTimestamps historyW)).getD 0 :=
  ⟨(transition_scan_spec historyW (by decide)).2.1,
   (transition_scan_spec historyW (by decide)).2.2⟩

/-- A successful `CreateOrUpdateAgent` only upserts the agent map. -/
theorem createOrUpdateAgent_ok (st : Store) (a : Agent) (st1 : Store)
    (h : st.createOrUpdateAgent a = .ok st1) :
    st1 = { st with agents := agentUpsertMap st a } := by
  unfold Store.createOrUpdateAgent at h
  cases hv : a.validate with
  | some e => rw [hv] at h; simp at h
  | none =>
    rw [hv] at h
    simp only [Except.ok.injEq] at h
    exact h.symm

/-- A successful `CreateOrUpdateSession` only upserts the session map at the
session's own key. -/
theorem createOrUpdateSession_ok (st : Store) (s : Session) (st1 : Store)
    (h : st.createOrUpdateSession s = .ok st1) :
    st1 = { st with sessions := sessionUpsertMap st s } := by
  unfold Store.createOrUpdateSession at h
  cases hv : s.validate with
  | some e => rw [hv] at h; simp at h
  | none =>
    rw [hv] at h
    cases hg : st.agents s.agentID with
    | none => rw [hg] at h; simp at h
    | some a0 =>
      rw [hg] at h
      simp only [Except.ok.injEq] at h
      exact h.symm

/-- A successful `AddStatus` only appends to the history at the record's own
key. -/
theorem addStatus_ok (st : Store) (rec : AgentStatus) (st1 : Store)
    (h : st.addStatus rec = .ok st1) :
    st1 = { st with statuses := statusAppendMap st rec } := by
  unfold Store.addStatus at h
  cases hv : rec.validate with
  | some e => rw [hv] at h; simp at h
  | none =>
    rw [hv] at h
    cases hg : st.sessions rec.agentID rec.sessionTopic with
    | none => rw [hg] at h; simp at h
    | some s0 =>
      rw [hg] at h
      simp only [Except.ok.injEq] at h
      exact h.symm

/-- A successful agent upsert step yields the built agent and only changes
the agents map. -/
theorem upsertAgentFromReport_ok (st : Store) (sr : StatusReport) (uid : String) (now : Time)
    (a : Agent) (st1 : Store)
    (h : upsertAgentFromReport st sr uid now = .ok (a, st1)) :
    agentFromReport st sr uid now = .ok a ∧
    st1 = { st with agents := agentUpsertMap st a } := by
  unfold upsertAgentFromReport at h
  cases hb : agentFromReport st sr uid now with
  | error e => rw [hb] at h; simp at h
  | ok agent =>
    rw [hb] at h
    dsimp only at h
    cases hc : st.createOrUpdateAgent agent with
    | error e => rw [hc] at h; simp at h
    | ok stx =>
      rw [hc] at h
      dsimp only at h
      simp only [Except.ok.injEq, Prod.mk.injEq] at h
      obtain ⟨h1, h2⟩ := h
      rw [← h1, ← h2]
      exact ⟨rfl, createOrUpdateAgent_ok st agent stx hc⟩

/-- A successful session upsert step installs `sessionFromReport` at its own
key and changes nothing else. -/
theorem upsertSessionFromReport_ok (st : Store) (sr : StatusReport) (now : Time) (st2 : Store)
    (h : upsertSessionFromReport st sr now = .ok st2) :
    st2 = { st with sessions := sessionUpsertMap st (sessionFromReport st sr now) } :=
  createOrUpdateSession_ok st (sessionFromReport st sr now) st2 h

/-- The full effect of a successful `processStatusReport` call: the built
agent exists, the history gains exactly the report's record at the report's
key, the session map gains the built session at its key, and a notification
is enqueued exactly under the trigger condition. -/
theorem process_ok_spec (np : Bool) (f : NotificationData → Option String)
    (st : Store) (sr : StatusReport) (uid : String) (now : Time)
    (hok : (processStatusReport np f st sr uid now).error = none) :
    ∃ agent,
      agentFromReport st sr uid now = .ok agent ∧
      (processStatusReport np f st sr uid now).store.statuses =
        statusAppendMap st (statusFromReport sr) ∧
      (processStatusReport np f st sr uid now).store.sessions =
        sessionUpsertMap st (sessionFromReport st sr now) ∧
      (processStatusReport np f st sr uid now).enqueued =
        (if np ∧ previousStatusOf (st.statuses sr.agentID sr.sessionTopic) = "running" ∧
            (sr.status = "success" ∨ sr.status = "failed" ∨ sr.status = "pending")
         then [notificationFromReport agent st sr] else []) := by
  unfold processStatusReport at hok ⊢
  cases hA : upsertAgentFromReport st sr uid now with
  | error e => rw [hA] at hok; simp at hok
  | ok p =>
    obtain ⟨agent, st1⟩ := p
    rw [hA] at hok
    dsimp only at hok ⊢
    obtain ⟨hAb, hst1⟩ := upsertAgentFromReport_ok st sr uid now agent st1 hA
    cases hS : upsertSessionFromReport st1 sr now with
    | error e => rw [hS] at hok; simp at hok
    | ok st2 =>
      rw [hS] at hok
      dsimp only at hok ⊢
      have hst2 := upsertSessionFromReport_ok st1 sr now st2 hS
      cases hAd : st2.addStatus (statusFromReport sr) with
      | error e => rw [hAd] at hok; simp at hok
      | ok st3 =>
        dsimp only
        have hst3 := addStatus_ok st2 (statusFromReport sr) st3 hAd
        subst hst1
        subst hst2
        subst hst3
        refine ⟨agent, hAb, ?_⟩
        by_cases hc : np ∧
            previousStatusOf (st.statuses sr.agentID sr.sessionTopic) = "running" ∧
            (sr.status = "success" ∨ sr.status = "failed" ∨ sr.status = "pending")
        · rw [if_pos hc]
          have hcond : (np : Prop) ∧
              previousStatusOf (st.getStatusHistory sr.agentID sr.sessionTopic) = "running" ∧
              (sr.status = "success" ∨ sr.status = "failed" ∨ sr.status = "pending") := hc
          rw [if_pos hcond]
          exact ⟨rfl, rfl, rfl⟩
        · rw [if_neg hc]
          have hcond : ¬ ((np : Prop) ∧
              previousStatusOf (st.getStatusHistory sr.agentID sr.sessionTopic) = "running" ∧
              (sr.status = "success" ∨ sr.status = "failed" ∨ sr.status = "pending")) := hc
          rw [if_neg hcond]
          exact ⟨rfl, rfl, rfl⟩

/-- Whenever something was enqueued, the call returned nil (all failure
branches enqueue nothing). -/
theorem process_enqueued_imp_ok (np : Bool) (f : NotificationData → Option String)
    (st : Store) (sr : StatusReport) (uid : String) (now : Time) (nd : NotificationData)
    (hnd : nd ∈ (processStatusReport np f st sr uid now).enqueued) :
    (processStatusReport np f st sr uid now).error = none := by
  unfold processStatusReport at hnd ⊢
  cases hA : upsertAgentFromReport st sr uid now with
  | error e => rw [hA] at hnd; simp at hnd
  | ok p =>
    obtain ⟨agent, st1⟩ := p
    rw [hA] at hnd
    dsimp only at hnd ⊢
    cases hS : upsertSessionFromReport st1 sr now with
    | error e => rw [hS] at hnd; simp at hnd
    | ok st2 =>
      rw [hS] at hnd
      dsimp only at hnd ⊢
      cases hAd : st2.addStatus (statusFromReport sr) with
      | error e => rw [hAd] at hnd; simp at hnd
      | ok st3 =>
        dsimp only
        split_ifs <;> rfl

/-- C1: with a configured (non-nil) notifier, a successfully processed report
enqueues a notification iff the computed previous status is `"running"` and
the new status is success, failed or pending. -/
theorem notification_trigger_iff (f : NotificationData → Option String)
    (st : Store) (sr : StatusReport) (uid : String) (now : Time)
    (hok : (processStatusReport true f st sr uid now).error = none) :
    ((processStatusReport true f st sr uid now).enqueued ≠ [] ↔
      previousStatusOf (st.statuses sr.agentID sr.sessionTopic) = "running" ∧
        (sr.status = "success" ∨ sr.status = "failed" ∨ sr.status = "pending")) := by
  obtain ⟨agent, _, _, _, henq⟩ := process_ok_spec true f st sr uid now hok
  rw [henq]
  by_cases hc : previousStatusOf (st.statuses sr.agentID sr.sessionTopic) = "running" ∧
      (sr.status = "success" ∨ sr.status = "failed" ∨ sr.status = "pending")
  · rw [if_pos ⟨rfl, hc.1, hc.2⟩]
    exact iff_of_true (by simp) hc
  · rw [if_neg (fun h => hc ⟨h.2.1, h.2.2⟩)]
    exact iff_of_false (by simp) hc

/-- C1 (witness): in `storeW` (history `running`@1s, `running`@2s) a `success`
report triggers; the equivalence is discharged at this concrete input. -/
theorem notification_trigger_iff_witness :
    ((processStatusReport true (fun _ => none) storeW reportW "user-1" 5000000000).enqueued ≠ [] ↔
      previousStatusOf (storeW.statuses reportW.agentID reportW.sessionTopic) = "running" ∧
        (reportW.status = "success" ∨ reportW.status = "failed" ∨ reportW.status = "pending")) :=
  notification_trigger_iff (fun _ => none) storeW reportW "user-1" 5000000000 (by decide)

/-- C2: the ingestion result is independent of the delivery outcome — the
returned error, the enqueued notifications and the resulting store are the
same for any two `Notify` behaviours — and whenever validation and all three
store calls succeed, `processStatusReport` returns nil. -/
theorem delivery_outcome_isolated (np : Bool) (f g : NotificationData → Option String)
    (st : Store) (sr : StatusReport) (uid : String) (now : Time) :
    ((processStatusReport np f st sr uid now).error =
        (processStatusReport np g st sr uid now).error ∧
      (processStatusReport np f st sr uid now).enqueued =
        (processStatusReport np g st sr uid now).enqueued ∧
      (processStatusReport np f st sr uid now).store =
        (processStatusReport np g st sr uid now).store) ∧
    (sr.validate = none → exceptOk (storeStepsOf st sr uid now) = true →
      (processStatusReport np f st sr uid now).error = none) := by
  constructor
  · unfold processStatusReport
    cases hA : upsertAgentFromReport st sr uid now with
    | error e => exact ⟨rfl, rfl, rfl⟩
    | ok p =>
      obtain ⟨agent, st1⟩ := p
      dsimp only
      cases hS : upsertSessionFromReport st1 sr now with
      | error e => exact ⟨rfl, rfl, rfl⟩
      | ok st2 =>
        dsimp only
        cases hAd : st2.addStatus (statusFromReport sr) with
        | error e => exact ⟨rfl, rfl, rfl⟩
        | ok st3 =>
          dsimp only
          split_ifs <;> exact ⟨rfl, rfl, rfl⟩
  · intro _ hsteps
    unfold storeStepsOf at hsteps
    unfold processStatusReport
    cases hA : upsertAgentFromReport st sr uid now with
    | error e => rw [hA] at hsteps; simp [exceptOk] at hsteps
    | ok p =>
      obtain ⟨agent, st1⟩ := p
      rw [hA] at hsteps
      dsimp only at hsteps ⊢
      cases hS : upsertSessionFromReport st1 sr now with
      | error e => rw [hS] at hsteps; simp [exceptOk] at hsteps
      | ok st2 =>
        rw [hS] at hsteps
        dsimp only at hsteps ⊢
        cases hAd : st2.addStatus (statusFromReport sr) with
        | error e => rw [hAd] at hsteps; simp [exceptOk] at hsteps
        | ok st3 =>
          dsimp only
          split_ifs <;> rfl

/-- C2 (witness): with a delivery behaviour that always fails, the concrete
report on `storeW` is still ingested with a nil error. -/
theorem delivery_outcome_isolated_witness :
    (processStatusReport true (fun _ => some "delivery refused") storeW reportW "user-1"
        5000000000).error = none :=
  (delivery_outcome_isolated true (fun _ => some "delivery refused") (fun _ => none) storeW
      reportW "user-1" 5000000000).2 (by decide) (by decide)

/-- C9: the status history is append-only — a successful `AddStatus` appends
exactly one record at the record's key and leaves every other key unchanged;
a successful `processStatusReport` appends exactly the report's record at the
report's key and leaves every other key unchanged; the expiry sweep never
touches the history. -/
theorem history_append_only (st : Store) (rec : AgentStatus) (st1 : Store) (np : Bool)
    (f : NotificationData → Option String) (sr : StatusReport) (uid : String) (now : Time) :
    (st.addStatus rec = .ok st1 →
      st1.statuses rec.agentID rec.sessionTopic =
          st.statuses rec.agentID rec.sessionTopic ++ [rec] ∧
        ∀ a t, ¬(a = rec.agentID ∧ t = rec.sessionTopic) →
          st1.statuses a t = st.statuses a t) ∧
    ((processStatusReport np f st sr uid now).error = none →
      (processStatusReport np f st sr uid now).store.statuses sr.agentID sr.sessionTopic =
          st.statuses sr.agentID sr.sessionTopic ++ [statusFromReport sr] ∧
        ∀ a t, ¬(a = sr.agentID ∧ t = sr.sessionTopic) →
          (processStatusReport np f st sr uid now).store.statuses a t = st.statuses a t) ∧
    (Store.checkExpiredSessions now st).statuses = st.statuses := by
  refine ⟨?_, ?_, rfl⟩
  · intro h
    have hec := addStatus_ok st rec st1 h
    subst hec
    constructor
    · show statusAppendMap st rec rec.agentID rec.sessionTopic = _
      unfold statusAppendMap
      rw [if_pos ⟨rfl, rfl⟩]
    · intro a t hne
      show statusAppendMap st rec a t = _
      unfold statusAppendMap
      rw [if_neg hne]
  · intro hok
    obtain ⟨agent, _, hstat, _, _⟩ := process_ok_spec np f st sr uid now hok
    rw [hstat]
    constructor
    · simp [statusAppendMap, statusFromReport]
    · intro a t hne
      simp [statusAppendMap, statusFromReport, hne]

/-- C9 (witness): appending `reportW`'s record to `storeW` grows the history
at its key by exactly that record, directly and through a full report. -/
theorem history_append_only_witness :
    (storeWAdded.statuses (statusFromReport reportW).agentID
        (statusFromReport reportW).sessionTopic =
      storeW.statuses (statusFromReport reportW).agentID
          (statusFromReport reportW).sessionTopic ++ [statusFromReport reportW] ∧
      ∀ a t, ¬(a = (statusFromReport reportW).agentID ∧
          t = (statusFromReport reportW).sessionTopic) →
        storeWAdded.statuses a t = storeW.statuses a t) ∧
    (processStatusReport true (fun _ => none) storeW reportW "user-1" 5000000000).store.statuses
        reportW.agentID reportW.sessionTopic =
      storeW.statuses reportW.agentID reportW.sessionTopic ++ [statusFromReport reportW] :=
  ⟨(history_append_only storeW (statusFromReport reportW) storeWAdded true (fun _ => none)
      reportW "user-1" 5000000000).1 rfl,
   ((history_append_only storeW (statusFromReport reportW) storeWAdded true (fun _ => none)
      reportW "user-1" 5000000000).2.1 (by decide)).1⟩

/-- C10: processing a report for a key with an existing session (whose stored
key fields match) only bumps `last_updated` and, when the report carries a
positive TTL, `ttl_minutes` — `expired` and `expired_at` are carried over
unchanged, so an expired session is never un-expired; `expired = false` only
arises from the brand-new session created for an unseen key. -/
theorem expired_not_reset (np : Bool) (f : NotificationData → Option String)
    (st : Store) (sr : StatusReport) (uid : String) (now : Time)
    (hok : (processStatusReport np f st sr uid now).error = none) :
    (∀ s, st.sessions sr.agentID sr.sessionTopic = some s →
      s.agentID = sr.agentID → s.sessionTopic = sr.sessionTopic →
      (processStatusReport np f st sr uid now).store.sessions sr.agentID sr.sessionTopic =
        some { s with lastUpdated := now,
                      ttlMinutes := if 0 < sr.ttlMinutes then sr.ttlMinutes else s.ttlMinutes }) ∧
    (st.sessions sr.agentID sr.sessionTopic = none →
      (processStatusReport np f st sr uid now).store.sessions sr.agentID sr.sessionTopic =
        some { agentID := sr.agentID, sessionTopic := sr.sessionTopic, created := now,
               lastUpdated := now, expired := false, expiredAt := none,
               ttlMinutes := if sr.ttlMinutes = 0 then 30 else sr.ttlMinutes }) := by
  obtain ⟨agent, _, _, hsess, _⟩ := process_ok_spec np f st sr uid now hok
  constructor
  · intro s hs hA hT
    rw [hsess]
    have hsf : sessionFromReport st sr now =
        { s with lastUpdated := now,
                 ttlMinutes := if 0 < sr.ttlMinutes then sr.ttlMinutes else s.ttlMinutes } := by
      unfold sessionFromReport Store.getSession
      rw [hs]
    unfold sessionUpsertMap
    rw [hsf]
    exact if_pos ⟨hA.symm, hT.symm⟩
  · intro hs
    rw [hsess]
    have hsf : sessionFromReport st sr now =
        { agentID := sr.agentID, sessionTopic := sr.sessionTopic, created := now,
          lastUpdated := now, expired := false, expiredAt := none,
          ttlMinutes := if sr.ttlMinutes = 0 then 30 else sr.ttlMinutes } := by
      unfold sessionFromReport Store.getSession
      rw [hs]
    unfold sessionUpsertMap
    rw [hsf]
    exact if_pos ⟨rfl, rfl⟩

/-- C10 (witness): an already-expired session keeps `expired = true` and its
`expired_at` through a new report, and an unseen key gets a fresh non-expired
session. -/
theorem expired_not_reset_witness :
    (processStatusReport true (fun _ => none) storeWExpired reportW "user-1"
        5000000000).store.sessions reportW.agentID reportW.sessionTopic =
      some { agentID := "agent-1", sessionTopic := "topic-1", created := 1000000000,
             lastUpdated := 5000000000, expired := true, expiredAt := some 1500000000,
             ttlMinutes := 30 } ∧
    (processStatusReport true (fun _ => none) storeWFresh reportW "user-1"
        5000000000).store.sessions reportW.agentID reportW.sessionTopic =
      some { agentID := "agent-1", sessionTopic := "topic-1", created := 5000000000,
             lastUpdated := 5000000000, expired := false, expiredAt := none,
             ttlMinutes := 30 } :=
  ⟨(expired_not_reset true (fun _ => none) storeWExpired reportW "user-1" 5000000000
      (by decide)).1 { sessionW with expired := true, expiredAt := some 1500000000 }
      (by decide) rfl rfl,
   (expired_not_reset true (fun _ => none) storeWFresh reportW "user-1" 5000000000
      (by decide)).2 (by decide)⟩

/-- All running timestamps extracted from a history with positive running
timestamps are positive. -/
theorem runningTimestamps_pos (history : List AgentStatus)
    (hz : ∀ e ∈ history, e.status = "running" → 0 < e.timestamp) :
    ∀ x ∈ runningTimestamps history, 0 < x := by
  intro x hx
  simp only [runningTimestamps, List.mem_map, List.mem_filter, decide_eq_true_eq] at hx
  obtain ⟨e, ⟨he, hr⟩, hxe⟩ := hx
  rw [← hxe]
  exact hz e he hr

/-- The minimum of a non-empty list of positive timestamps exists and is
positive. -/
theorem minTs_some_pos (xs : List Int) :
    (∀ x ∈ xs, 0 < x) → xs ≠ [] → ∃ m, minTs xs = some m ∧ 0 < m := by
  induction xs with
  | nil => intro _ h; exact absurd rfl h
  | cons x t ih =>
    intro hpos _
    cases hmt : minTs t with
    | none => exact ⟨x, by simp [minTs, hmt], hpos x (List.mem_cons_self x t)⟩
    | some m =>
      have ht : t ≠ [] := by
        intro h
        rw [h] at hmt
        simp [minTs] at hmt
      obtain ⟨m2, hm2, hp2⟩ := ih (fun y hy => hpos y (List.mem_cons_of_mem x hy)) ht
      rw [hmt] at hm2
      injection hm2 with hmm
      refine ⟨min x m, by simp [minTs, hmt], ?_⟩
      rw [hmm]
      exact lt_min (hpos x (List.mem_cons_self x t)) hp2

/-- C5 (counterexample): on `storeW` — history `running`@1s and `running`@2s —
the `success` report at 3s enqueues a notification whose duration is 2s,
measured from the earliest running record, not the 1s the claim's "most
recent prior running record" reading would give. -/
theorem duration_not_from_most_recent_running :
    ((processStatusReport true (fun _ => none) storeW reportW "user-1" 5000000000).enqueued.map
        (fun nd => nd.duration)) = [2000000000] ∧
    reportW.timestamp -
        specMostRecentRunningTs (storeW.statuses reportW.agentID reportW.sessionTopic) =
      1000000000 ∧
    ¬ (∀ nd ∈ (processStatusReport true (fun _ => none) storeW reportW "user-1"
          5000000000).enqueued,
        nd.duration = reportW.timestamp -
          specMostRecentRunningTs (storeW.statuses reportW.agentID reportW.sessionTopic)) := by
  decide

/-- C5 (amended): for a qualifying transition the enqueued duration is the
report timestamp minus the EARLIEST (minimum-timestamp) prior `"running"`
record of that session's history, and zero when no running record exists
(given positive running timestamps, as validation guarantees). -/
theorem notification_duration_from_earliest_running (np : Bool)
    (f : NotificationData → Option String) (st : Store) (sr : StatusReport)
    (uid : String) (now : Time)
    (hz : ∀ e ∈ st.statuses sr.agentID sr.sessionTopic, e.status = "running" → 0 < e.timestamp)
    (nd : NotificationData)
    (hnd : nd ∈ (processStatusReport np f st sr uid now).enqueued) :
    nd.duration =
      (if runningTimestamps (st.statuses sr.agentID sr.sessionTopic) = [] then 0
       else sr.timestamp -
         (minTs (runningTimestamps (st.statuses sr.agentID sr.sessionTopic))).getD 0) := by
  have hok := process_enqueued_imp_ok np f st sr uid now nd hnd
  obtain ⟨agent, _, _, _, henq⟩ := process_ok_spec np f st sr uid now hok
  rw [henq] at hnd
  by_cases hc : (np : Prop) ∧
      previousStatusOf (st.statuses sr.agentID sr.sessionTopic) = "running" ∧
      (sr.status = "success" ∨ sr.status = "failed" ∨ sr.status = "pending")
  · rw [if_pos hc] at hnd
    have hnd2 : nd = notificationFromReport agent st sr := List.mem_singleton.mp hnd
    subst hnd2
    show (if runningStartOf (st.statuses sr.agentID sr.sessionTopic) ≠ 0 then
        sr.timestamp - runningStartOf (st.statuses sr.agentID sr.sessionTopic) else 0) = _
    have hrun := runningStart_eq_minTs (st.statuses sr.agentID sr.sessionTopic) hz
    by_cases hE : runningTimestamps (st.statuses sr.agentID sr.sessionTopic) = []
    · rw [if_pos hE, hrun, hE]
      simp [minTs]
    · rw [if_neg hE]
      obtain ⟨m, hm, hmp⟩ := minTs_some_pos
        (runningTimestamps (st.statuses sr.agentID sr.sessionTopic))
        (runningTimestamps_pos (st.statuses sr.agentID sr.sessionTopic) hz) hE
      rw [hrun, hm]
      simp only [Option.getD_some]
      rw [if_pos (ne_of_gt hmp)]
  · rw [if_neg hc] at hnd
    simp at hnd

/-- C5 amended (witness): on `storeW`, the concrete report's notification
carries duration 2s = 3s − min(1s, 2s). -/
theorem notification_duration_from_earliest_running_witness :
    ({ agentID := "agent-1", agentName := "Worker", sessionTopic := "topic-1",
       fromStatus := "running", toStatus := "success", timestamp := 3000000000,
       message := "", content := "", duration := 2000000000 } : NotificationData).duration =
      (if runningTimestamps (storeW.statuses reportW.agentID reportW.sessionTopic) = [] then 0
       else reportW.timestamp -
         (minTs (runningTimestamps (storeW.statuses reportW.agentID
           reportW.sessionTopic))).getD 0) :=
  notification_duration_from_earliest_running true (fun _ => none) storeW reportW "user-1"
    5000000000 (by decide) _ (by decide)

/-- C8: `BuildPayload` is exactly the JSON rendering of
`\x7b"msg_type":"text","content":\x7b"text": FormatMessage(data)\x7d\x7d` with those
literal field names, and `FormatMessage` is the fixed header block (header
line, Agent ID, Agent Name, Session, "Status: from → to", RFC3339 timestamp,
Duration) followed by a `Message:` line exactly when `message` is non-empty
and a `Content:` line exactly when `content` is non-empty. -/
theorem build_payload_shape (d : NotificationData) :
    buildPayload d =
      (Json.obj [("msg_type", Json.str "text"),
                 ("content", Json.obj [("text", Json.str (formatMessage d))])]).render ∧
    formatMessage d =
      "🔔 Session Status Change\n\nAgent ID: " ++ d.agentID ++
        "\nAgent Name: " ++ d.agentName ++
        "\nSession: " ++ d.sessionTopic ++
        "\nStatus: " ++ d.fromStatus ++ " → " ++ d.toStatus ++
        "\nTimestamp: " ++ rfc3339 d.timestamp ++
        "\nDuration: " ++ durationGoString d.duration ++
        (if d.message = "" then "" else "\nMessage: " ++ d.message) ++
        (if d.content = "" then "" else "\nContent: " ++ d.content) := by
  constructor
  · apply String.ext
    simp [buildPayload, Json.render, Json.renderFields, jsonQuote, jsonEscapeChar,
      String.data_append, String.join]
  · unfold formatMessage
    by_cases hm : d.message = "" <;> by_cases hc2 : d.content = "" <;>
      simp [hm, hc2, String.append_assoc]

end KubeAgents
